import Mathlib

/-!
Verification of the ActiveStorage attachment/storage engine
(`core/storage/active_storage.go`, `r2.go`, `image_processor`,
`video_converter.go`, `audio_converter.go`, `media_utils.go`).

The Go code is shallowly embedded: pure string/byte manipulation is
translated function by function; the outside world (relational store,
settings rows, the external ffmpeg binary, the object-store backend) is
passed in explicitly as data (`Env`, `ProviderM`), and each `Attach`/`Delete`
call returns, besides its result, the ordered list of externally visible
events it performed (provider calls, row creation/deletion).
-/

namespace ActiveStorageProof

/-! ## String helpers mirroring the Go standard library -/

/-- Go `strings.Contains(s, sub)`: substring test. -/
def strContains (s sub : String) : Bool :=
  decide (sub.data <:+: s.data)

/-- Go `strings.HasSuffix(s, suf)` / suffix test used for filenames. -/
def strEndsWith (s suf : String) : Bool :=
  decide (suf.data <:+ s.data)

/-- Go `strings.TrimSuffix(s, suf)`: removes one trailing occurrence of
`suf` when present, otherwise returns `s` unchanged. -/
def trimSuffix (s suf : String) : String :=
  if suf.data <:+ s.data then
    String.mk (s.data.take (s.data.length - suf.data.length))
  else s

/-- Go `strings.TrimRight(s, "/")`: removes all trailing `'/'` characters. -/
def trimRightSlash (s : String) : String :=
  String.mk ((s.data.reverse.dropWhile (fun c => c = '/')).reverse)

/-- Go `strings.Join(l, sep)`. -/
def strJoin (sep : String) : List String → String
  | [] => ""
  | [a] => a
  | a :: b :: rest => a ++ sep ++ strJoin sep (b :: rest)

/-- Helper for Go `filepath.Ext`, working on the reversed character list:
collects the characters up to and including the first `'.'`; yields `[]`
when a path separator or the end of the string is reached first. -/
def extRev : List Char → List Char
  | [] => []
  | c :: rest =>
    if c = '/' then []
    else if c = '.' then [c]
    else if extRev rest = [] then [] else c :: extRev rest

/-- Go `filepath.Ext(s)`: the suffix beginning at the final dot in the
final path element; empty if there is no dot. -/
def filepathExt (s : String) : String :=
  String.mk ((extRev s.data.reverse).reverse)

/-- Go `filepath.Join` on two components, restricted to the clean
slash-free-boundary components used by this code base (for which Go's
`Clean` is the identity). -/
def filepathJoin2 (a b : String) : String :=
  if a = "" then b else if b = "" then a else a ++ "/" ++ b

/-- Go `filepath.Join(a, b, c)` as used for the upload path. -/
def filepathJoin3 (a b c : String) : String :=
  filepathJoin2 (filepathJoin2 a b) c

/-- Go `strings.ToLower` restricted to ASCII case mapping (the case the
storage package exercises), character by character. -/
def strToLower (s : String) : String :=
  String.mk (s.data.map Char.toLower)

/-- The extension of a filename, lower-cased, as computed throughout the
storage package (`strings.ToLower(filepath.Ext(filename))`). -/
def extLower (filename : String) : String :=
  strToLower (filepathExt filename)

/-! ## Basic lemmas about the string helpers -/

theorem extRev_prefix (l : List Char) : extRev l <+: l := by
  induction l with
  | nil => simp [extRev]
  | cons c rest ih =>
    simp only [extRev]
    by_cases h1 : c = '/'
    · simp [h1]
    · by_cases h2 : c = '.'
      · simp [h1, h2, List.prefix_cons_inj]
      · by_cases h3 : extRev rest = []
        · simp [h1, h2, h3]
        · simpa [h1, h2, h3] using ih

theorem filepathExt_suffix (s : String) : (filepathExt s).data <:+ s.data := by
  have h := extRev_prefix s.data.reverse
  have h2 : (extRev s.data.reverse).reverse <:+ s.data.reverse.reverse := by
    exact List.reverse_suffix.mpr (by simpa using h)
  simpa [filepathExt] using h2

theorem trimSuffix_append_of_suffix {s suf : String} (h : suf.data <:+ s.data) :
    (trimSuffix s suf).data ++ suf.data = s.data := by
  obtain ⟨t, ht⟩ := h
  have hlen : t.length + suf.data.length = s.data.length := by
    have hl := congrArg List.length ht
    rw [List.length_append] at hl
    omega
  have htake : s.data.take (s.data.length - suf.data.length) = t := by
    have he : s.data.length - suf.data.length = t.length := by omega
    rw [he, ← ht, List.take_left]
  simp only [trimSuffix, if_pos (show suf.data <:+ s.data from ⟨t, ht⟩)]
  show s.data.take (s.data.length - suf.data.length) ++ suf.data = s.data
  rw [htake]
  exact ht

theorem trimSuffix_length_of_suffix {s suf : String} (h : suf.data <:+ s.data) :
    (trimSuffix s suf).data.length + suf.data.length = s.data.length := by
  have := congrArg List.length (trimSuffix_append_of_suffix h)
  simpa using this

theorem strJoin_mem_infix {x : String} {l : List String} (h : x ∈ l) :
    strContains (strJoin "," l) x = true := by
  induction l with
  | nil => cases h
  | cons a rest ih =>
    rcases List.mem_cons.mp h with rfl | hmem
    · cases rest with
      | nil => simp [strContains, strJoin]
      | cons b r =>
        simp only [strContains, strJoin, decide_eq_true_eq, String.data_append]
        exact ⟨[], (",").data ++ (strJoin "," (b :: r)).data, by simp⟩
    · cases rest with
      | nil => cases hmem
      | cons b r =>
        have hr : strContains (strJoin "," (b :: r)) x = true := ih hmem
        simp only [strContains, decide_eq_true_eq] at hr ⊢
        simp only [strJoin, String.data_append]
        exact hr.trans ⟨a.data ++ (",").data, [], by simp⟩


/-! ## Data model (`storage` package types) -/

/-- `*multipart.FileHeader` as seen by this package: the client-supplied
filename and size, plus the byte stream behind `file.Open()`. -/
structure FileHeader where
  Filename : String
  Size : Int
  content : List Nat
deriving Repr, DecidableEq

/-- `storage.AttachmentConfig` — per-(model, field) upload policy. -/
structure AttachmentConfig where
  Field : String
  Path : String
  AllowedExtensions : List String
  MaxFileSize : Int
  Multiple : Bool
deriving Repr, DecidableEq

/-- `storage.Attachment` — the persisted metadata row (Id/timestamps are
assigned by the relational store and carry no logic here). -/
structure Attachment where
  ModelType : String
  ModelId : Nat
  Field : String
  Filename : String
  Path : String
  URL : String
  Size : Int
deriving Repr, DecidableEq

/-- `storage.UploadResult` — transient provider call result. -/
structure UploadResult where
  Filename : String
  Path : String
  Size : Int
deriving Repr, DecidableEq

/-- `storage.UploadConfig` passed to provider uploads. -/
structure UploadConfig where
  AllowedExtensions : List String
  MaxFileSize : Int
  UploadPath : String
deriving Repr, DecidableEq

/-- The `Attachable` interface: `GetModelName()` and `GetId()`. -/
structure ModelInfo where
  name : String
  id : Nat
deriving Repr, DecidableEq

/-! ## Converters -/

/-- `storage.ImageProcessor`. -/
structure ImageProcessor where
  Quality : Int
deriving Repr, DecidableEq

/-- `storage.NewImageProcessor`: `if quality <= 0 || quality > 100 { quality = 85 }`. -/
def NewImageProcessor (quality : Int) : ImageProcessor :=
  if quality ≤ 0 ∨ quality > 100 then { Quality := 85 } else { Quality := quality }

/-- `storage.VideoConverter`. -/
structure VideoConverter where
  Quality : Int
deriving Repr, DecidableEq

/-- `storage.NewVideoConverter`: `if quality < 0 || quality > 51 { quality = 23 }`. -/
def NewVideoConverter (quality : Int) : VideoConverter :=
  if quality < 0 ∨ quality > 51 then { Quality := 23 } else { Quality := quality }

/-- `storage.AudioConverter`. -/
structure AudioConverter where
  Bitrate : Int
deriving Repr, DecidableEq

/-- `storage.NewAudioConverter`: `if bitrate <= 0 { bitrate = 96 }`. -/
def NewAudioConverter (bitrate : Int) : AudioConverter :=
  if bitrate ≤ 0 then { Bitrate := 96 } else { Bitrate := bitrate }

/-- Supported image extensions (`ImageProcessor.IsImageFile`). -/
def imageExts : List String :=
  [".jpg", ".jpeg", ".png", ".bmp", ".tiff", ".tif", ".webp"]

/-- Supported video extensions (`VideoConverter.IsVideoFile`). -/
def videoExts : List String :=
  [".mp4", ".mov", ".avi", ".mkv", ".flv", ".wmv", ".webm", ".m4v", ".mpeg", ".mpg"]

/-- Supported audio extensions (`AudioConverter.IsAudioFile`). -/
def audioExts : List String :=
  [".mp3", ".wav", ".flac", ".aac", ".m4a", ".ogg", ".wma", ".opus"]

/-- Membership scan over a concrete extension list, as the Go converters
perform it (`for _, supported := range supportedExts { if ext == supported ... }`). -/
def extElem (l : List String) (x : String) : Bool :=
  match l with
  | [] => false
  | a :: rest => if a = x then true else extElem rest x

/-- `ImageProcessor.IsImageFile`. -/
def IsImageFile (filename : String) : Bool := extElem imageExts (extLower filename)

/-- `VideoConverter.IsVideoFile`. -/
def IsVideoFile (filename : String) : Bool := extElem videoExts (extLower filename)

/-- `AudioConverter.IsAudioFile`. -/
def IsAudioFile (filename : String) : Bool := extElem audioExts (extLower filename)

/-! ### Image decoding / WebP encoding (imported libraries)

The image decoders come from the imported `image/jpeg`, `image/png` and
`go-webp` libraries, and the WebP encoder from `go-webp`.  They are modelled
by their documented observable behaviour: a decoder succeeds exactly when the
byte stream carries its format's magic number (Go's generic `image.Decode`
recognises only the registered formats, here jpeg and png), and the lossy
WebP encoder emits a RIFF/WEBP container.  The decoded image is represented
by the source byte run, and the encoded payload by the decoded bytes. -/

def jpegMagic : List Nat := [255, 216]

def pngMagic : List Nat := [137, 80, 78, 71]

/-- "RIFF" ++ "WEBP" container framing bytes of every WebP file. -/
def riffWebpTag : List Nat := [82, 73, 70, 70, 87, 69, 66, 80]

def startsWithBytes (magic data : List Nat) : Bool := decide (magic <+: data)

/-- `ImageProcessor.decodeImage`: dispatch on the lower-cased extension to
jpeg/png/webp decoders, with `image.Decode` (registered formats: jpeg, png)
as generic fallback. -/
def decodeImage (data : List Nat) (filename : String) : Option (List Nat) :=
  if extLower filename = ".jpg" ∨ extLower filename = ".jpeg" then
    if startsWithBytes jpegMagic data then some data else none
  else if extLower filename = ".png" then
    if startsWithBytes pngMagic data then some data else none
  else if extLower filename = ".webp" then
    if startsWithBytes riffWebpTag data then some data else none
  else
    if startsWithBytes jpegMagic data || startsWithBytes pngMagic data then
      some data
    else none

/-- `webp.Encode` with lossy encoder options: emits a RIFF/WEBP container
around the (model-abstracted) encoded payload. -/
def webpEncode (quality : Int) (img : List Nat) : List Nat :=
  let _ := quality
  riffWebpTag ++ img

/-- `ImageProcessor.ConvertToWebP`: returns `(some bytes, newName)` on
conversion, `(none, originalName)` on no-op, or an error. -/
def ConvertToWebP (ip : ImageProcessor) (file : FileHeader) :
    Except String (Option (List Nat) × String) :=
  if IsImageFile file.Filename = false then
    .ok (none, file.Filename)
  else if extLower file.Filename = ".webp" then
    .ok (none, file.Filename)
  else
    match decodeImage file.content file.Filename with
    | none => .error "failed to decode image"
    | some img =>
      let ext := filepathExt file.Filename
      .ok (some (webpEncode ip.Quality img), trimSuffix file.Filename ext ++ ".webp")

/-- The world outside the storage package: settings rows, the relational
store's behaviour for this call, the presence of the `ffmpeg` binary on
PATH and the outcome of running it. -/
structure Env where
  ffmpegPresent : Bool
  videoRun : Except String (List Nat)
  audioRun : Except String (List Nat)
  settings : String → Option Bool
  dbCreateErr : Option String
  dbDeleteErr : Option String
  findRow : String → Nat → String → Option Attachment

/-- `VideoConverter.ConvertToWebM`: no-op for non-video or already-`.webm`
input; hard error when `ffmpeg` is absent from PATH; otherwise the outcome
of the temp-file + ffmpeg pipeline (`env.videoRun`), renamed to `.webm`. -/
def ConvertToWebM (vc : VideoConverter) (env : Env) (file : FileHeader) :
    Except String (Option (List Nat) × String) :=
  let _ := vc
  if IsVideoFile file.Filename = false then
    .ok (none, file.Filename)
  else if extLower file.Filename = ".webm" then
    .ok (none, file.Filename)
  else if env.ffmpegPresent = false then
    .error "ffmpeg not found: video conversion requires ffmpeg to be installed"
  else
    match env.videoRun with
    | .error e => .error e
    | .ok data =>
      let ext := filepathExt file.Filename
      .ok (some data, trimSuffix file.Filename ext ++ ".webm")

/-- `AudioConverter.ConvertToOpus`: same discipline with `.opus`. -/
def ConvertToOpus (ac : AudioConverter) (env : Env) (file : FileHeader) :
    Except String (Option (List Nat) × String) :=
  let _ := ac
  if IsAudioFile file.Filename = false then
    .ok (none, file.Filename)
  else if extLower file.Filename = ".opus" then
    .ok (none, file.Filename)
  else if env.ffmpegPresent = false then
    .error "ffmpeg not found: audio conversion requires ffmpeg to be installed"
  else
    match env.audioRun with
    | .error e => .error e
    | .ok data =>
      let ext := filepathExt file.Filename
      .ok (some data, trimSuffix file.Filename ext ++ ".opus")

/-! ## Provider abstraction and the ActiveStorage orchestrator -/

/-- The `storage.Provider` interface, as data: each method is a (pure)
function from its arguments to its outcome for this call. -/
structure ProviderM where
  upload : FileHeader → UploadConfig → Except String UploadResult
  uploadBytes : List Nat → String → UploadConfig → Except String UploadResult
  deleteBlob : String → Except String Unit
  getURL : String → String

/-- `storage.ActiveStorage` after construction: one provider, the config
registry (model → field → config) and the three converters. -/
structure ActiveStorageS where
  provider : ProviderM
  configs : String → Option (String → Option AttachmentConfig)
  imageProcessor : ImageProcessor
  videoConverter : VideoConverter
  audioConverter : AudioConverter

/-- `ActiveStorage.getConfig`. -/
def getConfig (as : ActiveStorageS) (modelName field : String) :
    Except String AttachmentConfig :=
  match as.configs modelName with
  | none => .error ("no attachment config found for model " ++ modelName)
  | some m =>
    match m field with
    | none => .error ("no attachment config found for field " ++ field ++
        " in model " ++ modelName)
    | some c => .ok c

/-- `ActiveStorage.validateFile`: size cap, then the extension check
`strings.Contains(strings.Join(config.AllowedExtensions, ","), ext)` on the
lower-cased extension, skipped when `AllowedExtensions` is empty.
Returns `some errorMessage` on rejection, `none` on acceptance. -/
def validateFile (file : FileHeader) (config : AttachmentConfig) : Option String :=
  if file.Size > config.MaxFileSize then
    some ("file size exceeds maximum allowed size of " ++
      toString config.MaxFileSize ++ " bytes")
  else
    let ext := extLower file.Filename
    if config.AllowedExtensions ≠ [] ∧
        strContains (strJoin "," config.AllowedExtensions) ext = false then
      some ("file extension " ++ ext ++ " is not allowed")
    else none

/-- `ActiveStorage.getSettingBool`: the stored boolean when the settings
row reads back, the supplied default on any read failure. -/
def getSettingBool (env : Env) (key : String) (dflt : Bool) : Bool :=
  (env.settings key).getD dflt

/-- Externally visible events of an orchestrator call, in order. -/
inductive Ev where
  | convImage
  | convVideo
  | convAudio
  | upload (file : FileHeader)
  | uploadBytes (data : List Nat) (filename : String)
  | blobDelete (path : String)
  | rowCreate (a : Attachment)
  | rowDelete (a : Attachment)
deriving Repr, DecidableEq

/-- The conversion block of `Attach` (image, then video, then audio, each
gated on its settings toggle and short-circuited by a previous non-nil
result), with its converter-invocation trace.  Yields
`(some bytes, newName)` when some converter produced output and
`(none, originalName)` otherwise. -/
def convertPipeline (as : ActiveStorageS) (env : Env) (file : FileHeader) :
    Except String (Option (List Nat) × String) × List Ev :=
  let ci := getSettingBool env "media_convert_images" true
  let cv := getSettingBool env "media_convert_videos" true
  let ca := getSettingBool env "media_convert_audio" true
  let s1 : Except String (Option (List Nat) × String) × List Ev :=
    if ci then (ConvertToWebP as.imageProcessor file, [Ev.convImage])
    else (.ok (none, ""), [])
  match s1 with
  | (.error e, ev) => (.error ("failed to convert image to webp: " ++ e), ev)
  | (.ok (some d, f), ev) => (.ok (some d, f), ev)
  | (.ok (none, _), ev) =>
    let s2 : Except String (Option (List Nat) × String) × List Ev :=
      if cv then (ConvertToWebM as.videoConverter env file, ev ++ [Ev.convVideo])
      else (.ok (none, ""), ev)
    match s2 with
    | (.error e, ev2) => (.error ("failed to convert video to webm: " ++ e), ev2)
    | (.ok (some d, f), ev2) => (.ok (some d, f), ev2)
    | (.ok (none, _), ev2) =>
      let s3 : Except String (Option (List Nat) × String) × List Ev :=
        if ca then (ConvertToOpus as.audioConverter env file, ev2 ++ [Ev.convAudio])
        else (.ok (none, ""), ev2)
      match s3 with
      | (.error e, ev3) => (.error ("failed to convert audio to opus: " ++ e), ev3)
      | (.ok (some d, f), ev3) => (.ok (some d, f), ev3)
      | (.ok (none, _), ev3) => (.ok (none, file.Filename), ev3)

/-- The `finalFile` value of `Attach`: a fresh header around the converted
bytes when conversion produced output, the original header otherwise. -/
def mkFinalFile (file : FileHeader) (cd : Option (List Nat)) (cf : String) :
    FileHeader :=
  match cd with
  | some d => { Filename := cf, Size := (d.length : Int), content := d }
  | none => file

/-- The `UploadConfig` built by `Attach`:
`UploadPath = filepath.Join(config.Path, modelName, field)`. -/
def mkUploadConfig (config : AttachmentConfig) (model : ModelInfo)
    (field : String) : UploadConfig :=
  { AllowedExtensions := config.AllowedExtensions,
    MaxFileSize := config.MaxFileSize,
    UploadPath := filepathJoin3 config.Path model.name field }

/-- The provider call of `Attach`: `UploadBytes` when conversion produced
output, `Upload` on the original stream otherwise; paired with the
corresponding trace event. -/
def uploadStep (as : ActiveStorageS) (ucfg : UploadConfig)
    (cd : Option (List Nat)) (finalFile : FileHeader) :
    Except String UploadResult × Ev :=
  match cd with
  | some d => (as.provider.uploadBytes d finalFile.Filename ucfg,
      Ev.uploadBytes d finalFile.Filename)
  | none => (as.provider.upload finalFile ucfg, Ev.upload finalFile)

/-- The Attachment row as persisted by `Attach` on success: identity
fields and the pre-upload final file's name/size, with `Path`/`URL`
folded in from the upload result. -/
def persistedAttachment (as : ActiveStorageS) (model : ModelInfo)
    (field : String) (finalFile : FileHeader) (result : UploadResult) :
    Attachment :=
  { ModelType := model.name, ModelId := model.id, Field := field,
    Filename := finalFile.Filename, Size := finalFile.Size,
    Path := result.Path, URL := as.provider.getURL result.Path }

/-- Tail of `Attach` after a successful conversion pipeline. -/
def attachFinish (as : ActiveStorageS) (env : Env) (model : ModelInfo)
    (field : String) (file : FileHeader) (config : AttachmentConfig)
    (cd : Option (List Nat)) (cf : String) (ev : List Ev) :
    Except String Attachment × List Ev :=
  match (uploadStep as (mkUploadConfig config model field) cd
      (mkFinalFile file cd cf)).1 with
  | .error e =>
    (.error e, ev ++ [(uploadStep as (mkUploadConfig config model field) cd
      (mkFinalFile file cd cf)).2])
  | .ok result =>
    match env.dbCreateErr with
    | some e =>
      let _ := as.provider.deleteBlob result.Path
      (.error e, ev ++ [(uploadStep as (mkUploadConfig config model field) cd
        (mkFinalFile file cd cf)).2, Ev.blobDelete result.Path])
    | none =>
      (.ok (persistedAttachment as model field (mkFinalFile file cd cf) result),
        ev ++ [(uploadStep as (mkUploadConfig config model field) cd
          (mkFinalFile file cd cf)).2,
          Ev.rowCreate (persistedAttachment as model field
            (mkFinalFile file cd cf) result)])

/-- `ActiveStorage.Attach`. -/
def Attach (as : ActiveStorageS) (env : Env) (model : ModelInfo)
    (field : String) (file : FileHeader) :
    Except String Attachment × List Ev :=
  match getConfig as model.name field with
  | .error e => (.error e, [])
  | .ok config =>
    match validateFile file config with
    | some e => (.error e, [])
    | none =>
      match convertPipeline as env file with
      | (.error e, ev) => (.error e, ev)
      | (.ok (cd, cf), ev) => attachFinish as env model field file config cd cf ev

/-- `ActiveStorage.Delete`: blob first, row only afterwards. -/
def Delete (as : ActiveStorageS) (env : Env) (att : Attachment) :
    Except String Unit × List Ev :=
  match as.provider.deleteBlob att.Path with
  | .error e => (.error e, [Ev.blobDelete att.Path])
  | .ok _ =>
    match env.dbDeleteErr with
    | some e => (.error e, [Ev.blobDelete att.Path, Ev.rowDelete att])
    | none => (.ok (), [Ev.blobDelete att.Path, Ev.rowDelete att])

/-- `ActiveStorage.LoadAttachment`: point lookup by
(ModelType, ModelId, Field), URL recomputed from the stored path. -/
def LoadAttachment (as : ActiveStorageS) (env : Env) (model : ModelInfo)
    (field : String) : Except String Attachment :=
  match env.findRow model.name model.id field with
  | none => .error "record not found"
  | some a => .ok { a with URL := as.provider.getURL a.Path }

/-! ## The R2 provider (`r2.go`) -/

/-- `storage.R2Config`. -/
structure R2Config where
  AccessKeyID : String
  AccessKeySecret : String
  AccountID : String
  Bucket : String
  BaseURL : String
  CDN : String
deriving Repr, DecidableEq

/-- `storage.r2Provider` state after `NewR2Provider` (the S3 client handle
carries no URL logic). -/
structure R2State where
  bucket : String
  endpoint : String
  baseURL : String
  cdn : String
deriving Repr, DecidableEq

/-- `storage.NewR2Provider`: fixes the endpoint to
`https://<account_id>.r2.cloudflarestorage.com` and copies bucket,
BaseURL and CDN. -/
def NewR2Provider (config : R2Config) : R2State :=
  { bucket := config.Bucket,
    endpoint := "https://" ++ config.AccountID ++ ".r2.cloudflarestorage.com",
    baseURL := config.BaseURL,
    cdn := config.CDN }

/-- `r2Provider.GetURL`: CDN prefix, else BaseURL, else the raw endpoint
URL (note the code prepends another `https://` to the already-schemed
endpoint). -/
def R2State.GetURL (p : R2State) (path : String) : String :=
  if p.cdn ≠ "" then trimRightSlash p.cdn ++ "/" ++ path
  else if p.baseURL ≠ "" then trimRightSlash p.baseURL ++ "/" ++ path
  else "https://" ++ p.endpoint ++ "/" ++ p.bucket ++ "/" ++ path

/-- Modelled from the spec: `generateUniqueFilename` (its defining file is
not under `src/`; `r2.go` and the S3 provider call it) — "generating a
collision-resistant unique filename (original name/extension preserved,
uniqueness token injected)".  Modelled as splicing a fresh token between
the base name and the extension. -/
def generateUniqueFilename (token filename : String) : String :=
  let ext := filepathExt filename
  trimSuffix filename ext ++ "_" ++ token ++ ext

/-- `r2Provider.Upload`: unique key under `config.UploadPath`, a PutObject
whose outcome is `putErr`, result sized by the original header. -/
def r2Upload (token : String) (putErr : Option String) (file : FileHeader)
    (config : UploadConfig) : Except String UploadResult :=
  let filename := generateUniqueFilename token file.Filename
  let key := config.UploadPath ++ "/" ++ filename
  match putErr with
  | some e => .error ("failed to upload to R2: " ++ e)
  | none => .ok { Filename := filename, Path := key, Size := file.Size }

/-- `r2Provider.UploadBytes`: unique key under `config.UploadPath`, result
sized by the byte count. -/
def r2UploadBytes (token : String) (putErr : Option String) (data : List Nat)
    (filename : String) (config : UploadConfig) : Except String UploadResult :=
  let uniqueFilename := generateUniqueFilename token filename
  let key := config.UploadPath ++ "/" ++ uniqueFilename
  match putErr with
  | some e => .error ("failed to upload to R2: " ++ e)
  | none => .ok { Filename := uniqueFilename, Path := key, Size := (data.length : Int) }

/-- The R2 provider packaged as a `ProviderM` (PutObject/DeleteObject
outcomes and the uniqueness token supplied by the environment). -/
def r2ProviderM (p : R2State) (token : String) (putErr delErr : Option String) :
    ProviderM :=
  { upload := r2Upload token putErr,
    uploadBytes := r2UploadBytes token putErr,
    deleteBlob := fun _ =>
      match delErr with
      | some e => .error e
      | none => .ok (),
    getURL := p.GetURL }

/-! ## General lemmas about the embedding -/

theorem extElem_eq_true_iff {l : List String} {x : String} :
    extElem l x = true ↔ x ∈ l := by
  induction l with
  | nil => simp [extElem]
  | cons a rest ih =>
    by_cases h : a = x
    · simp [extElem, h]
    · simp [extElem, h, ih, Ne.symm h]

theorem video_not_image {f : String} (h : IsVideoFile f = true) :
    IsImageFile f = false := by
  have hx : extLower f ∈ videoExts := extElem_eq_true_iff.mp h
  have hall : ∀ x ∈ videoExts, extElem imageExts x = false := by decide
  exact hall _ hx

theorem image_not_video {f : String} (h : IsImageFile f = true) :
    IsVideoFile f = false := by
  have hx : extLower f ∈ imageExts := extElem_eq_true_iff.mp h
  have hall : ∀ x ∈ imageExts, extElem videoExts x = false := by decide
  exact hall _ hx

theorem image_not_audio {f : String} (h : IsImageFile f = true) :
    IsAudioFile f = false := by
  have hx : extLower f ∈ imageExts := extElem_eq_true_iff.mp h
  have hall : ∀ x ∈ imageExts, extElem audioExts x = false := by decide
  exact hall _ hx

/-! ## Shared concrete fixtures for witnesses and counterexamples -/

/-- A provider whose calls all succeed, prefixing paths with `p/`. -/
def okProvider : ProviderM :=
  { upload := fun f _ => .ok { Filename := f.Filename, Path := "p/" ++ f.Filename, Size := f.Size },
    uploadBytes := fun d fn _ => .ok { Filename := fn, Path := "p/" ++ fn, Size := (d.length : Int) },
    deleteBlob := fun _ => .ok (),
    getURL := fun path => path }

/-- An orchestrator over a given provider with one registered config for
(`document`, `file`). -/
def mkAS (p : ProviderM) (cfg : AttachmentConfig) : ActiveStorageS :=
  { provider := p,
    configs := fun n =>
      if n = "document" then some (fun f => if f = "file" then some cfg else none)
      else none,
    imageProcessor := NewImageProcessor 85,
    videoConverter := NewVideoConverter 23,
    audioConverter := NewAudioConverter 96 }

/-- An environment with no settings rows, a present encoder, and a healthy
relational store. -/
def baseEnv : Env :=
  { ffmpegPresent := true,
    videoRun := .error "unused",
    audioRun := .error "unused",
    settings := fun _ => none,
    dbCreateErr := none,
    dbDeleteErr := none,
    findRow := fun _ _ _ => none }

def docModel : ModelInfo := { name := "document", id := 7 }

def cxCfg : AttachmentConfig :=
  { Field := "file", Path := "uploads", AllowedExtensions := [".jpg"],
    MaxFileSize := 100, Multiple := false }

/-- A file whose extension `.jp` is *not* in `[".jpg"]` yet is a substring
of the joined list. -/
def cxFile : FileHeader := { Filename := "a.jp", Size := 1, content := [0] }

def cxJpgFile : FileHeader := { Filename := "b.jpg", Size := 1, content := [255, 216, 3] }

/-! ## C1 — validation semantics -/

/-- C1 (counterexample): the extension `.jp` of `a.jp` is not a member of
`AllowedExtensions = [".jpg"]` and the size is within bounds, so the claim
demands a validation error and no upload; the code accepts the file
(`strings.Contains` substring test against the joined list) and proceeds to
upload and persist it. -/
theorem C1_counterexample :
    (extLower cxFile.Filename ∈ cxCfg.AllowedExtensions → False) ∧
    cxFile.Size ≤ cxCfg.MaxFileSize ∧
    validateFile cxFile cxCfg = none ∧
    (Attach (mkAS okProvider cxCfg) baseEnv docModel "file" cxFile).2 =
      [Ev.convImage, Ev.convVideo, Ev.convAudio, Ev.upload cxFile,
        Ev.rowCreate ⟨"document", 7, "file", "a.jp", "p/a.jp", "p/a.jp", 1⟩] := by
  refine ⟨by decide, by decide, by decide, ?_⟩
  decide

/-- C1 (amended): `validateFile` accepts exactly the files whose size is
within `MaxFileSize` and whose lower-cased extension either faces an empty
`AllowedExtensions` list or occurs as a *substring* of the comma-joined
`AllowedExtensions`; membership in the list (the claim's reading) is
sufficient for acceptance but not necessary.  Any rejection makes `Attach`
return the validation error with no provider call and no row creation. -/
theorem C1_validate_substring_semantics
    (as : ActiveStorageS) (env : Env) (model : ModelInfo) (field : String)
    (file : FileHeader) (config : AttachmentConfig)
    (hc : getConfig as model.name field = .ok config) :
    (validateFile file config = none ↔
      (file.Size ≤ config.MaxFileSize ∧
        (config.AllowedExtensions = [] ∨
          strContains (strJoin "," config.AllowedExtensions)
            (extLower file.Filename) = true))) ∧
    (file.Size ≤ config.MaxFileSize →
      extLower file.Filename ∈ config.AllowedExtensions →
      validateFile file config = none) ∧
    (∀ e, validateFile file config = some e →
      Attach as env model field file = (.error e, [])) := by
  refine ⟨?_, ?_, ?_⟩
  · unfold validateFile
    by_cases h1 : file.Size > config.MaxFileSize
    · simp only [if_pos h1]
      constructor
      · intro h; cases h
      · rintro ⟨h2, _⟩; omega
    · simp only [if_neg h1]
      by_cases h2 : config.AllowedExtensions ≠ [] ∧
          strContains (strJoin "," config.AllowedExtensions)
            (extLower file.Filename) = false
      · simp only [if_pos h2]
        constructor
        · intro h; cases h
        · rintro ⟨_, h3 | h3⟩
          · exact absurd h3 h2.1
          · rw [h2.2] at h3; cases h3
      · simp only [if_neg h2]
        constructor
        · intro _
          refine ⟨by omega, ?_⟩
          by_cases he : config.AllowedExtensions = []
          · exact Or.inl he
          · refine Or.inr ?_
            rcases Bool.eq_false_or_eq_true
              (strContains (strJoin "," config.AllowedExtensions)
                (extLower file.Filename)) with ht | hf
            · exact ht
            · exact absurd ⟨he, hf⟩ h2
        · intro _; trivial
  · intro hs hmem
    unfold validateFile
    rw [if_neg (by omega)]
    have := strJoin_mem_infix hmem
    simp [this]
  · intro e hv
    simp [Attach, hc, hv]

/-- C1 (witness for the amended theorem): a `.jpg` file under
`AllowedExtensions = [".jpg"]` passes validation by membership. -/
theorem C1_witness :
    cxJpgFile.Size ≤ cxCfg.MaxFileSize ∧
    extLower cxJpgFile.Filename ∈ cxCfg.AllowedExtensions ∧
    validateFile cxJpgFile cxCfg = none :=
  ⟨by decide, by decide,
    (C1_validate_substring_semantics (mkAS okProvider cxCfg) baseEnv docModel
      "file" cxJpgFile cxCfg rfl).2.1 (by decide) (by decide)⟩

/-! ## C4 — Delete orders blob before row -/

/-- C4: `Delete` deletes the blob first; a blob-delete error is returned
as-is and no row deletion is issued; only on blob-delete success is the
row deleted (with the relational outcome surfaced). -/
theorem C4_blob_delete_first (as : ActiveStorageS) (env : Env) (att : Attachment) :
    (∀ e, as.provider.deleteBlob att.Path = .error e →
      Delete as env att = (.error e, [Ev.blobDelete att.Path])) ∧
    (∀ u, as.provider.deleteBlob att.Path = .ok u →
      Delete as env att =
        ((match env.dbDeleteErr with
          | some e => .error e
          | none => .ok ()),
          [Ev.blobDelete att.Path, Ev.rowDelete att])) := by
  constructor
  · intro e h
    unfold Delete
    rw [h]
  · intro u h
    unfold Delete
    rw [h]
    cases env.dbDeleteErr <;> rfl

/-- A provider whose blob deletion fails. -/
def badDeleteProvider : ProviderM :=
  { okProvider with deleteBlob := fun _ => .error "r2 delete failed" }

def wAtt : Attachment :=
  { ModelType := "document", ModelId := 7, Field := "file",
    Filename := "a.jpg", Path := "p/a.jpg", URL := "p/a.jpg", Size := 1 }

/-- C4 (witness): a failing blob delete aborts `Delete` without a row
deletion. -/
theorem C4_witness :
    (mkAS badDeleteProvider cxCfg).provider.deleteBlob wAtt.Path = .error "r2 delete failed" ∧
    Delete (mkAS badDeleteProvider cxCfg) baseEnv wAtt =
      (.error "r2 delete failed", [Ev.blobDelete wAtt.Path]) :=
  ⟨rfl, (C4_blob_delete_first (mkAS badDeleteProvider cxCfg) baseEnv wAtt).1
    "r2 delete failed" rfl⟩

/-! ## C5 — R2 URL precedence -/

/-- C5: `GetURL` of the R2 provider resolves with precedence CDN prefix
(trailing slashes trimmed) over configured BaseURL over the raw-endpoint
form — the CDN wins even when a BaseURL is also configured, since the
BaseURL branch is only reached when the CDN is empty. -/
theorem C5_r2_geturl_precedence (config : R2Config) (path : String) :
    (config.CDN ≠ "" →
      (NewR2Provider config).GetURL path = trimRightSlash config.CDN ++ "/" ++ path) ∧
    (config.CDN = "" → config.BaseURL ≠ "" →
      (NewR2Provider config).GetURL path = trimRightSlash config.BaseURL ++ "/" ++ path) ∧
    (config.CDN = "" → config.BaseURL = "" →
      (NewR2Provider config).GetURL path =
        "https://" ++ ("https://" ++ config.AccountID ++ ".r2.cloudflarestorage.com") ++
          "/" ++ config.Bucket ++ "/" ++ path) := by
  refine ⟨?_, ?_, ?_⟩
  · intro h
    simp [NewR2Provider, R2State.GetURL, h]
  · intro h1 h2
    simp [NewR2Provider, R2State.GetURL, h1, h2]
  · intro h1 h2
    simp [NewR2Provider, R2State.GetURL, h1, h2]

/-- An R2 configuration with both a CDN prefix and a BaseURL set. -/
def wR2Cfg : R2Config :=
  { AccessKeyID := "k", AccessKeySecret := "s", AccountID := "acct",
    Bucket := "bkt", BaseURL := "https://base.example.com",
    CDN := "https://cdn.example.com/" }

/-- C5 (witness): with both CDN and BaseURL configured, the CDN prefix
(trailing slash trimmed) is used. -/
theorem C5_witness :
    wR2Cfg.CDN ≠ "" ∧ wR2Cfg.BaseURL ≠ "" ∧
    (NewR2Provider wR2Cfg).GetURL "a/b.webp" =
      trimRightSlash wR2Cfg.CDN ++ "/" ++ "a/b.webp" :=
  ⟨by decide, by decide, (C5_r2_geturl_precedence wR2Cfg "a/b.webp").1 (by decide)⟩

/-! ## C8 — image quality clamping -/

/-- C8 (counterexample): the claim's valid range is "0–100", so at
`quality = 0` it demands `Quality = 0`; the code treats `quality <= 0` as
invalid and clamps `0` to the default `85`. -/
theorem C8_counterexample :
    (NewImageProcessor 0).Quality = 85 ∧ ((0 : Int) ≤ 0 ∧ (0 : Int) ≤ 100) ∧
      (85 : Int) ≠ 0 := by
  refine ⟨rfl, by decide, by decide⟩

/-- C8 (amended): the constructed `ImageProcessor`'s `Quality` equals `q`
exactly when `0 < q ≤ 100`; every other value — `0` included — clamps to
the default `85`. -/
theorem C8_quality_clamp (q : Int) :
    (NewImageProcessor q).Quality = if 0 < q ∧ q ≤ 100 then q else 85 := by
  unfold NewImageProcessor
  by_cases h : q ≤ 0 ∨ q > 100
  · rw [if_pos h, if_neg (by omega)]
  · rw [if_neg h, if_pos (by omega)]

/-! ## C9 — LoadAttachment recomputes the URL -/

/-- C9: `LoadAttachment` looks the row up by the exact triple
(ModelType, ModelId, Field) and returns it with `URL` recomputed as
`provider.GetURL` of the stored `Path`, whatever URL the row persisted. -/
theorem C9_load_recomputes_url (as : ActiveStorageS) (env : Env)
    (model : ModelInfo) (field : String) (row : Attachment)
    (h : env.findRow model.name model.id field = some row) :
    LoadAttachment as env model field =
      .ok { row with URL := as.provider.getURL row.Path } := by
  unfold LoadAttachment
  rw [h]

/-- A stored row carrying a stale URL. -/
def staleRow : Attachment :=
  { ModelType := "document", ModelId := 7, Field := "file",
    Filename := "a.webp", Path := "uploads/document/file/a_x.webp",
    URL := "https://old-cdn.example.com/stale", Size := 9 }

def loadEnv : Env :=
  { baseEnv with
    findRow := fun m i f =>
      if m = "document" ∧ i = 7 ∧ f = "file" then some staleRow else none }

/-- A provider resolving URLs under a current CDN prefix. -/
def cdnProvider : ProviderM :=
  { okProvider with getURL := fun path => "https://cdn.example.com/" ++ path }

/-- C9 (witness): the stale persisted URL is overridden by
`GetURL(Path)` under the current configuration. -/
theorem C9_witness :
    loadEnv.findRow docModel.name docModel.id "file" = some staleRow ∧
    staleRow.URL ≠ "https://cdn.example.com/" ++ staleRow.Path ∧
    LoadAttachment (mkAS cdnProvider cxCfg) loadEnv docModel "file" =
      .ok { staleRow with URL := (mkAS cdnProvider cxCfg).provider.getURL staleRow.Path } :=
  ⟨by decide, by decide,
    C9_load_recomputes_url (mkAS cdnProvider cxCfg) loadEnv docModel "file"
      staleRow (by decide)⟩

/-! ## Unfolding lemmas for `Attach` and the conversion pipeline -/

theorem strEndsWith_append (s t : String) : strEndsWith (s ++ t) t = true := by
  simp only [strEndsWith, decide_eq_true_eq, String.data_append]
  exact List.suffix_append s.data t.data

theorem decodeImage_some_eq {data : List Nat} {filename : String} {img : List Nat}
    (h : decodeImage data filename = some img) : img = data := by
  unfold decodeImage at h
  split_ifs at h <;> simp_all

theorem webpEncode_ne (q : Int) (d : List Nat) : webpEncode q d ≠ d := by
  intro h
  have hl := congrArg List.length h
  simp [webpEncode, riffWebpTag] at hl
  omega

theorem generateUniqueFilename_length (token fn : String) :
    (generateUniqueFilename token fn).data.length =
      fn.data.length + 1 + token.data.length := by
  have hs := filepathExt_suffix fn
  have ht := trimSuffix_length_of_suffix hs
  show (trimSuffix fn (filepathExt fn) ++ "_" ++ token ++ filepathExt fn).data.length = _
  rw [String.data_append, String.data_append, String.data_append]
  rw [List.length_append, List.length_append, List.length_append]
  have h1 : ("_" : String).data.length = 1 := rfl
  omega

theorem generateUniqueFilename_ne (token fn : String) :
    generateUniqueFilename token fn ≠ fn := by
  intro h
  have hl := congrArg (fun s => s.data.length) h
  simp only [generateUniqueFilename_length] at hl
  omega

theorem Attach_eq_of_pipe {as : ActiveStorageS} {env : Env} {model : ModelInfo}
    {field : String} {file : FileHeader} {config : AttachmentConfig}
    {cd : Option (List Nat)} {cf : String} {ev : List Ev}
    (hc : getConfig as model.name field = .ok config)
    (hval : validateFile file config = none)
    (hp : convertPipeline as env file = (.ok (cd, cf), ev)) :
    Attach as env model field file =
      attachFinish as env model field file config cd cf ev := by
  simp [Attach, hc, hval, hp]

theorem Attach_eq_of_pipeErr {as : ActiveStorageS} {env : Env} {model : ModelInfo}
    {field : String} {file : FileHeader} {config : AttachmentConfig}
    {e : String} {ev : List Ev}
    (hc : getConfig as model.name field = .ok config)
    (hval : validateFile file config = none)
    (hp : convertPipeline as env file = (.error e, ev)) :
    Attach as env model field file = (.error e, ev) := by
  simp [Attach, hc, hval, hp]

theorem pipeline_image_some {as : ActiveStorageS} {env : Env} {file : FileHeader}
    {d : List Nat} {f : String}
    (hci : getSettingBool env "media_convert_images" true = true)
    (hi : ConvertToWebP as.imageProcessor file = .ok (some d, f)) :
    convertPipeline as env file = (.ok (some d, f), [Ev.convImage]) := by
  simp [convertPipeline, hci, hi]

theorem pipeline_video_some {as : ActiveStorageS} {env : Env} {file : FileHeader}
    {f1 : String} {d : List Nat} {f : String}
    (hci : getSettingBool env "media_convert_images" true = true)
    (hcv : getSettingBool env "media_convert_videos" true = true)
    (hi : ConvertToWebP as.imageProcessor file = .ok (none, f1))
    (hv2 : ConvertToWebM as.videoConverter env file = .ok (some d, f)) :
    convertPipeline as env file = (.ok (some d, f), [Ev.convImage, Ev.convVideo]) := by
  simp [convertPipeline, hci, hcv, hi, hv2]

theorem pipeline_audio_some {as : ActiveStorageS} {env : Env} {file : FileHeader}
    {f1 f2 : String} {d : List Nat} {f : String}
    (hci : getSettingBool env "media_convert_images" true = true)
    (hcv : getSettingBool env "media_convert_videos" true = true)
    (hca : getSettingBool env "media_convert_audio" true = true)
    (hi : ConvertToWebP as.imageProcessor file = .ok (none, f1))
    (hv2 : ConvertToWebM as.videoConverter env file = .ok (none, f2))
    (ha : ConvertToOpus as.audioConverter env file = .ok (some d, f)) :
    convertPipeline as env file =
      (.ok (some d, f), [Ev.convImage, Ev.convVideo, Ev.convAudio]) := by
  simp [convertPipeline, hci, hcv, hca, hi, hv2, ha]

theorem pipeline_all_none {as : ActiveStorageS} {env : Env} {file : FileHeader}
    {f1 f2 f3 : String}
    (hci : getSettingBool env "media_convert_images" true = true)
    (hcv : getSettingBool env "media_convert_videos" true = true)
    (hca : getSettingBool env "media_convert_audio" true = true)
    (hi : ConvertToWebP as.imageProcessor file = .ok (none, f1))
    (hv2 : ConvertToWebM as.videoConverter env file = .ok (none, f2))
    (ha : ConvertToOpus as.audioConverter env file = .ok (none, f3)) :
    convertPipeline as env file =
      (.ok (none, file.Filename), [Ev.convImage, Ev.convVideo, Ev.convAudio]) := by
  simp [convertPipeline, hci, hcv, hca, hi, hv2, ha]

theorem pipeline_video_error {as : ActiveStorageS} {env : Env} {file : FileHeader}
    {e : String}
    (hni : IsImageFile file.Filename = false)
    (hcv : getSettingBool env "media_convert_videos" true = true)
    (hv2 : ConvertToWebM as.videoConverter env file = .error e) :
    convertPipeline as env file =
      (.error ("failed to convert video to webm: " ++ e),
        (if getSettingBool env "media_convert_images" true then [Ev.convImage]
          else []) ++ [Ev.convVideo]) := by
  have h1 : ConvertToWebP as.imageProcessor file = .ok (none, file.Filename) := by
    simp [ConvertToWebP, hni]
  by_cases hci : getSettingBool env "media_convert_images" true = true
  · simp [convertPipeline, hci, hcv, h1, hv2]
  · rw [Bool.not_eq_true] at hci
    simp [convertPipeline, hci, hcv, hv2]

theorem pipeline_none_img_off {as : ActiveStorageS} {env : Env} {file : FileHeader}
    (hci : getSettingBool env "media_convert_images" true = false)
    (hnv : IsVideoFile file.Filename = false)
    (hna : IsAudioFile file.Filename = false) :
    convertPipeline as env file =
      (.ok (none, file.Filename),
        (if getSettingBool env "media_convert_videos" true then [Ev.convVideo]
          else []) ++
        (if getSettingBool env "media_convert_audio" true then [Ev.convAudio]
          else [])) := by
  have h2 : ConvertToWebM as.videoConverter env file = .ok (none, file.Filename) := by
    simp [ConvertToWebM, hnv]
  have h3 : ConvertToOpus as.audioConverter env file = .ok (none, file.Filename) := by
    simp [ConvertToOpus, hna]
  by_cases hcv : getSettingBool env "media_convert_videos" true = true
  · by_cases hca : getSettingBool env "media_convert_audio" true = true
    · simp [convertPipeline, hci, hcv, hca, h2, h3]
    · rw [Bool.not_eq_true] at hca
      simp [convertPipeline, hci, hcv, hca, h2]
  · rw [Bool.not_eq_true] at hcv
    by_cases hca : getSettingBool env "media_convert_audio" true = true
    · simp [convertPipeline, hci, hcv, hca, h3]
    · rw [Bool.not_eq_true] at hca
      simp [convertPipeline, hci, hcv, hca]

theorem attachFinish_trace (as : ActiveStorageS) (env : Env) (model : ModelInfo)
    (field : String) (file : FileHeader) (config : AttachmentConfig)
    (cd : Option (List Nat)) (cf : String) (ev : List Ev) :
    ∃ rest, (attachFinish as env model field file config cd cf ev).2 =
      ev ++ (uploadStep as (mkUploadConfig config model field) cd
        (mkFinalFile file cd cf)).2 :: rest := by
  unfold attachFinish
  rcases hu : (uploadStep as (mkUploadConfig config model field) cd
      (mkFinalFile file cd cf)).1 with e | result
  · exact ⟨[], by simp [hu]⟩
  · cases hd : env.dbCreateErr with
    | some e => exact ⟨[Ev.blobDelete result.Path], by simp [hu, hd]⟩
    | none =>
      exact ⟨[Ev.rowCreate (persistedAttachment as model field
        (mkFinalFile file cd cf) result)], by simp [hu, hd]⟩

theorem attachFinish_ok_att {as : ActiveStorageS} {env : Env} {model : ModelInfo}
    {field : String} {file : FileHeader} {config : AttachmentConfig}
    {cd : Option (List Nat)} {cf : String} {ev : List Ev} {att : Attachment}
    (h : (attachFinish as env model field file config cd cf ev).1 = .ok att) :
    ∃ res, (uploadStep as (mkUploadConfig config model field) cd
        (mkFinalFile file cd cf)).1 = .ok res ∧
      att = persistedAttachment as model field (mkFinalFile file cd cf) res := by
  unfold attachFinish at h
  rcases hu : (uploadStep as (mkUploadConfig config model field) cd
      (mkFinalFile file cd cf)).1 with e | result
  · rw [hu] at h
    simp at h
  · rw [hu] at h
    cases hd : env.dbCreateErr with
    | some e =>
      rw [hd] at h
      simp at h
    | none =>
      rw [hd] at h
      simp at h
      exact ⟨result, rfl, h.symm⟩

theorem attachFinish_ok_eq {as : ActiveStorageS} {env : Env} {model : ModelInfo}
    {field : String} {file : FileHeader} {config : AttachmentConfig}
    {cd : Option (List Nat)} {cf : String} {ev : List Ev} {res : UploadResult}
    (hu : (uploadStep as (mkUploadConfig config model field) cd
      (mkFinalFile file cd cf)).1 = .ok res)
    (hdb : env.dbCreateErr = none) :
    attachFinish as env model field file config cd cf ev =
      (.ok (persistedAttachment as model field (mkFinalFile file cd cf) res),
        ev ++ [(uploadStep as (mkUploadConfig config model field) cd
          (mkFinalFile file cd cf)).2,
          Ev.rowCreate (persistedAttachment as model field
            (mkFinalFile file cd cf) res)]) := by
  simp [attachFinish, hu, hdb]

theorem attachFinish_err_eq {as : ActiveStorageS} {env : Env} {model : ModelInfo}
    {field : String} {file : FileHeader} {config : AttachmentConfig}
    {cd : Option (List Nat)} {cf : String} {ev : List Ev} {res : UploadResult}
    {e : String}
    (hu : (uploadStep as (mkUploadConfig config model field) cd
      (mkFinalFile file cd cf)).1 = .ok res)
    (hdb : env.dbCreateErr = some e) :
    attachFinish as env model field file config cd cf ev =
      (.error e, ev ++ [(uploadStep as (mkUploadConfig config model field) cd
        (mkFinalFile file cd cf)).2, Ev.blobDelete res.Path]) := by
  simp [attachFinish, hu, hdb]

/-! ## C2 — conversion order and mutual exclusion -/

/-- C2: with the three conversion toggles enabled, conversion inside one
`Attach` call is attempted in the fixed order image, video, audio; the
first converter returning non-nil output wins and later converters are
not attempted (the traces below contain exactly the converters invoked,
in order, followed by the upload of the winner's bytes); when no
converter produces output, the original file header — stream and
filename unchanged — is passed to the provider's `Upload`. -/
theorem C2_conversion_order (as : ActiveStorageS) (env : Env) (model : ModelInfo)
    (field : String) (file : FileHeader) (config : AttachmentConfig)
    (hc : getConfig as model.name field = .ok config)
    (hval : validateFile file config = none)
    (hci : getSettingBool env "media_convert_images" true = true)
    (hcv : getSettingBool env "media_convert_videos" true = true)
    (hca : getSettingBool env "media_convert_audio" true = true) :
    (∀ d f, ConvertToWebP as.imageProcessor file = .ok (some d, f) →
      ∃ rest, (Attach as env model field file).2 =
        [Ev.convImage, Ev.uploadBytes d f] ++ rest) ∧
    (∀ f1 d f, ConvertToWebP as.imageProcessor file = .ok (none, f1) →
      ConvertToWebM as.videoConverter env file = .ok (some d, f) →
      ∃ rest, (Attach as env model field file).2 =
        [Ev.convImage, Ev.convVideo, Ev.uploadBytes d f] ++ rest) ∧
    (∀ f1 f2 d f, ConvertToWebP as.imageProcessor file = .ok (none, f1) →
      ConvertToWebM as.videoConverter env file = .ok (none, f2) →
      ConvertToOpus as.audioConverter env file = .ok (some d, f) →
      ∃ rest, (Attach as env model field file).2 =
        [Ev.convImage, Ev.convVideo, Ev.convAudio, Ev.uploadBytes d f] ++ rest) ∧
    (∀ f1 f2 f3, ConvertToWebP as.imageProcessor file = .ok (none, f1) →
      ConvertToWebM as.videoConverter env file = .ok (none, f2) →
      ConvertToOpus as.audioConverter env file = .ok (none, f3) →
      ∃ rest, (Attach as env model field file).2 =
        [Ev.convImage, Ev.convVideo, Ev.convAudio, Ev.upload file] ++ rest) := by
  refine ⟨?_, ?_, ?_, ?_⟩
  · intro d f hi
    rw [Attach_eq_of_pipe hc hval (pipeline_image_some hci hi)]
    obtain ⟨rest, hr⟩ := attachFinish_trace as env model field file config
      (some d) f [Ev.convImage]
    refine ⟨rest, ?_⟩
    rw [hr]
    simp [uploadStep, mkFinalFile]
  · intro f1 d f hi hv2
    rw [Attach_eq_of_pipe hc hval (pipeline_video_some hci hcv hi hv2)]
    obtain ⟨rest, hr⟩ := attachFinish_trace as env model field file config
      (some d) f [Ev.convImage, Ev.convVideo]
    refine ⟨rest, ?_⟩
    rw [hr]
    simp [uploadStep, mkFinalFile]
  · intro f1 f2 d f hi hv2 ha
    rw [Attach_eq_of_pipe hc hval (pipeline_audio_some hci hcv hca hi hv2 ha)]
    obtain ⟨rest, hr⟩ := attachFinish_trace as env model field file config
      (some d) f [Ev.convImage, Ev.convVideo, Ev.convAudio]
    refine ⟨rest, ?_⟩
    rw [hr]
    simp [uploadStep, mkFinalFile]
  · intro f1 f2 f3 hi hv2 ha
    rw [Attach_eq_of_pipe hc hval (pipeline_all_none hci hcv hca hi hv2 ha)]
    obtain ⟨rest, hr⟩ := attachFinish_trace as env model field file config
      none file.Filename [Ev.convImage, Ev.convVideo, Ev.convAudio]
    refine ⟨rest, ?_⟩
    rw [hr]
    simp [uploadStep, mkFinalFile]

/-- C2 (witness): a non-media file under the default toggles walks all
three converters in order and is uploaded unchanged. -/
theorem C2_witness :
    ConvertToWebP (mkAS okProvider cxCfg).imageProcessor cxFile = .ok (none, "a.jp") ∧
    ∃ rest, (Attach (mkAS okProvider cxCfg) baseEnv docModel "file" cxFile).2 =
      [Ev.convImage, Ev.convVideo, Ev.convAudio, Ev.upload cxFile] ++ rest :=
  ⟨rfl,
    (C2_conversion_order (mkAS okProvider cxCfg) baseEnv docModel "file" cxFile
        cxCfg rfl (by decide) rfl rfl rfl).2.2.2 "a.jp" "a.jp" "a.jp"
      rfl rfl rfl⟩

/-! ## C3 — compensating blob delete on insert failure -/

/-- C3: when the row insert fails after a successful upload, `Attach`
attempts to delete the just-uploaded blob and returns exactly the
persistence error; the delete's outcome never surfaces — the statement
holds for every provider, hence for every possible outcome of
`deleteBlob`.  On insert success the persisted Attachment is returned. -/
theorem C3_insert_failure_compensation (as : ActiveStorageS) (env : Env)
    (model : ModelInfo) (field : String) (file : FileHeader)
    (config : AttachmentConfig) (cd : Option (List Nat)) (cf : String)
    (ev : List Ev) (res : UploadResult)
    (hc : getConfig as model.name field = .ok config)
    (hval : validateFile file config = none)
    (hp : convertPipeline as env file = (.ok (cd, cf), ev))
    (hu : (uploadStep as (mkUploadConfig config model field) cd
      (mkFinalFile file cd cf)).1 = .ok res) :
    (∀ e, env.dbCreateErr = some e →
      Attach as env model field file =
        (.error e, ev ++ [(uploadStep as (mkUploadConfig config model field) cd
          (mkFinalFile file cd cf)).2, Ev.blobDelete res.Path])) ∧
    (env.dbCreateErr = none →
      Attach as env model field file =
        (.ok (persistedAttachment as model field (mkFinalFile file cd cf) res),
          ev ++ [(uploadStep as (mkUploadConfig config model field) cd
            (mkFinalFile file cd cf)).2,
            Ev.rowCreate (persistedAttachment as model field
              (mkFinalFile file cd cf) res)])) := by
  constructor
  · intro e hd
    rw [Attach_eq_of_pipe hc hval hp, attachFinish_err_eq hu hd]
  · intro hd
    rw [Attach_eq_of_pipe hc hval hp, attachFinish_ok_eq hu hd]

def failDbEnv : Env := { baseEnv with dbCreateErr := some "insert failed" }

/-- C3 (witness): with a failing insert and a provider whose blob delete
itself fails, `Attach` still returns exactly the insert error while the
trace shows the attempted compensating delete. -/
theorem C3_witness :
    (mkAS badDeleteProvider cxCfg).provider.deleteBlob "p/a.jp" =
      .error "r2 delete failed" ∧
    Attach (mkAS badDeleteProvider cxCfg) failDbEnv docModel "file" cxFile =
      (.error "insert failed",
        [Ev.convImage, Ev.convVideo, Ev.convAudio, Ev.upload cxFile,
          Ev.blobDelete "p/a.jp"]) :=
  ⟨rfl,
    (C3_insert_failure_compensation (mkAS badDeleteProvider cxCfg) failDbEnv
        docModel "file" cxFile cxCfg none "a.jp"
        [Ev.convImage, Ev.convVideo, Ev.convAudio]
        { Filename := "a.jp", Path := "p/a.jp", Size := 1 }
        rfl (by decide) rfl rfl).1 "insert failed" rfl⟩

/-! ## C6 — hard error when the encoder binary is absent -/

/-- C6: with the encoder binary absent and a video file actually selected
for conversion (video-type extension, not already `.webm`, video
conversion enabled), `Attach` fails with the explicit wrapped
"ffmpeg not found" error and its trace carries no upload and no row
creation; for non-video or already-`.webm` input, `ConvertToWebM`
no-ops (nil output, original filename, no error) even with the encoder
absent. -/
theorem C6_encoder_absent (as : ActiveStorageS) (env : Env) (model : ModelInfo)
    (field : String) (file : FileHeader) (config : AttachmentConfig)
    (hc : getConfig as model.name field = .ok config)
    (hval : validateFile file config = none)
    (hff : env.ffmpegPresent = false)
    (hvid : IsVideoFile file.Filename = true)
    (hext : extLower file.Filename ≠ ".webm")
    (hcv : getSettingBool env "media_convert_videos" true = true) :
    Attach as env model field file =
      (.error ("failed to convert video to webm: " ++
          "ffmpeg not found: video conversion requires ffmpeg to be installed"),
        (if getSettingBool env "media_convert_images" true then [Ev.convImage]
          else []) ++ [Ev.convVideo]) ∧
    (∀ d f, Ev.uploadBytes d f ∉ (Attach as env model field file).2) ∧
    (∀ f2, Ev.upload f2 ∉ (Attach as env model field file).2) ∧
    (∀ a, Ev.rowCreate a ∉ (Attach as env model field file).2) ∧
    (∀ file2 : FileHeader,
      IsVideoFile file2.Filename = false ∨ extLower file2.Filename = ".webm" →
      ConvertToWebM as.videoConverter env file2 = .ok (none, file2.Filename)) := by
  have hcm : ConvertToWebM as.videoConverter env file =
      .error "ffmpeg not found: video conversion requires ffmpeg to be installed" := by
    simp [ConvertToWebM, hvid, hext, hff]
  have hA := Attach_eq_of_pipeErr hc hval
    (pipeline_video_error (video_not_image hvid) hcv hcm)
  refine ⟨hA, ?_, ?_, ?_, ?_⟩
  · intro d f
    rw [hA]
    by_cases hcimg : getSettingBool env "media_convert_images" true = true <;>
      simp [hcimg]
  · intro f2
    rw [hA]
    by_cases hcimg : getSettingBool env "media_convert_images" true = true <;>
      simp [hcimg]
  · intro a
    rw [hA]
    by_cases hcimg : getSettingBool env "media_convert_images" true = true <;>
      simp [hcimg]
  · intro file2 h2
    rcases h2 with h2 | h2
    · simp [ConvertToWebM, h2]
    · by_cases hv3 : IsVideoFile file2.Filename = false
      · simp [ConvertToWebM, hv3]
      · simp [ConvertToWebM, hv3, h2]

def cfgMp4 : AttachmentConfig :=
  { Field := "file", Path := "uploads", AllowedExtensions := [".mp4"],
    MaxFileSize := 100, Multiple := false }

def mp4File : FileHeader := { Filename := "v.mp4", Size := 5, content := [0, 1, 2] }

def noFfmpegEnv : Env := { baseEnv with ffmpegPresent := false }

/-- C6 (witness): attaching a `.mp4` with video conversion enabled and no
encoder on PATH fails with the explicit error after the two converter
attempts, with no upload performed. -/
theorem C6_witness :
    noFfmpegEnv.ffmpegPresent = false ∧ IsVideoFile mp4File.Filename = true ∧
    Attach (mkAS okProvider cfgMp4) noFfmpegEnv docModel "file" mp4File =
      (.error ("failed to convert video to webm: " ++
          "ffmpeg not found: video conversion requires ffmpeg to be installed"),
        [Ev.convImage, Ev.convVideo]) :=
  ⟨rfl, by decide,
    (C6_encoder_absent (mkAS okProvider cfgMp4) noFfmpegEnv docModel "file"
      mp4File cfgMp4 rfl (by decide) rfl (by decide) (by decide) rfl).1⟩

/-! ## C7 — image files become WebP iff conversion is enabled -/

/-- C7: for an image file whose (lower-cased) extension is not `.webp`:
with image conversion enabled and a decodable stream, the uploaded bytes
are the WebP encoding (which differ from the original bytes) under a
filename ending in `.webp`, and a persisted row carries that `.webp`
filename and the converted size; with image conversion disabled, the
original header — bytes and filename unchanged — is uploaded, and a
persisted row carries the original filename and size. -/
theorem C7_image_conversion (as : ActiveStorageS) (env : Env) (model : ModelInfo)
    (field : String) (file : FileHeader) (config : AttachmentConfig)
    (hc : getConfig as model.name field = .ok config)
    (hval : validateFile file config = none)
    (hImg : IsImageFile file.Filename = true)
    (hExt : extLower file.Filename ≠ ".webp") :
    (getSettingBool env "media_convert_images" true = true →
      ∀ img, decodeImage file.content file.Filename = some img →
        strEndsWith (trimSuffix file.Filename (filepathExt file.Filename) ++ ".webp")
          ".webp" = true ∧
        webpEncode as.imageProcessor.Quality img ≠ file.content ∧
        (∃ rest, (Attach as env model field file).2 =
          [Ev.convImage,
            Ev.uploadBytes (webpEncode as.imageProcessor.Quality img)
              (trimSuffix file.Filename (filepathExt file.Filename) ++ ".webp")] ++
            rest) ∧
        (∀ att, (Attach as env model field file).1 = .ok att →
          att.Filename =
            trimSuffix file.Filename (filepathExt file.Filename) ++ ".webp" ∧
          att.Size = ((webpEncode as.imageProcessor.Quality img).length : Int))) ∧
    (getSettingBool env "media_convert_images" true = false →
      (∃ evpre rest, (Attach as env model field file).2 =
        evpre ++ Ev.upload file :: rest) ∧
      (∀ att, (Attach as env model field file).1 = .ok att →
        att.Filename = file.Filename ∧ att.Size = file.Size)) := by
  constructor
  · intro hon img hd
    have hi : ConvertToWebP as.imageProcessor file =
        .ok (some (webpEncode as.imageProcessor.Quality img),
          trimSuffix file.Filename (filepathExt file.Filename) ++ ".webp") := by
      simp [ConvertToWebP, hImg, hExt, hd]
    have hA := Attach_eq_of_pipe hc hval (pipeline_image_some hon hi)
    refine ⟨strEndsWith_append _ _, ?_, ?_, ?_⟩
    · rw [decodeImage_some_eq hd]
      exact webpEncode_ne _ _
    · rw [hA]
      obtain ⟨rest, hr⟩ := attachFinish_trace as env model field file config
        (some (webpEncode as.imageProcessor.Quality img))
        (trimSuffix file.Filename (filepathExt file.Filename) ++ ".webp")
        [Ev.convImage]
      refine ⟨rest, ?_⟩
      rw [hr]
      simp [uploadStep, mkFinalFile]
    · intro att hatt
      rw [hA] at hatt
      obtain ⟨res, hu, hattEq⟩ := attachFinish_ok_att hatt
      subst hattEq
      simp [persistedAttachment, mkFinalFile]
  · intro hoff
    have hA := Attach_eq_of_pipe hc hval
      (pipeline_none_img_off hoff (image_not_video hImg) (image_not_audio hImg))
    constructor
    · rw [hA]
      obtain ⟨rest, hr⟩ := attachFinish_trace as env model field file config
        none file.Filename
        ((if getSettingBool env "media_convert_videos" true then [Ev.convVideo]
          else []) ++
          (if getSettingBool env "media_convert_audio" true then [Ev.convAudio]
            else []))
      refine ⟨(if getSettingBool env "media_convert_videos" true then [Ev.convVideo]
          else []) ++
        (if getSettingBool env "media_convert_audio" true then [Ev.convAudio]
          else []), rest, ?_⟩
      rw [hr]
      simp [uploadStep, mkFinalFile]
    · intro att hatt
      rw [hA] at hatt
      obtain ⟨res, hu, hattEq⟩ := attachFinish_ok_att hatt
      subst hattEq
      simp [persistedAttachment, mkFinalFile]

def cfgPng : AttachmentConfig :=
  { Field := "file", Path := "uploads", AllowedExtensions := [".png"],
    MaxFileSize := 100, Multiple := false }

def pngFile : FileHeader :=
  { Filename := "p.png", Size := 4, content := [137, 80, 78, 71] }

/-- C7 (witness): a valid `.png` under enabled conversion gets a `.webp`
filename and byte-distinct converted output. -/
theorem C7_witness :
    IsImageFile pngFile.Filename = true ∧
    decodeImage pngFile.content pngFile.Filename = some pngFile.content ∧
    strEndsWith (trimSuffix pngFile.Filename (filepathExt pngFile.Filename) ++ ".webp")
      ".webp" = true ∧
    webpEncode (mkAS okProvider cfgPng).imageProcessor.Quality pngFile.content ≠
      pngFile.content :=
  ⟨by decide, rfl,
    ((C7_image_conversion (mkAS okProvider cfgPng) baseEnv docModel "file" pngFile
        cfgPng rfl (by decide) (by decide) (by decide)).1 rfl
      pngFile.content rfl).1,
    ((C7_image_conversion (mkAS okProvider cfgPng) baseEnv docModel "file" pngFile
        cfgPng rfl (by decide) (by decide) (by decide)).1 rfl
      pngFile.content rfl).2.1⟩

/-! ## C10 — persisted fields vs. provider-generated unique filename -/

/-- C10: under the R2 provider, a successful `Attach` persists the
pre-upload final file's name and size in `Filename`/`Size` (the converted
name and byte length when a conversion produced output, the client's
otherwise); only `Path` and `URL` are folded in from the `UploadResult`,
so the provider-generated unique filename is a suffix of the stored
`Path` but is never the stored `Filename`. -/
theorem C10_persisted_fields (p : R2State) (token : String) (as : ActiveStorageS)
    (env : Env) (model : ModelInfo) (field : String) (file : FileHeader)
    (config : AttachmentConfig) (cd : Option (List Nat)) (cf : String)
    (ev : List Ev)
    (hprov : as.provider = r2ProviderM p token none none)
    (hc : getConfig as model.name field = .ok config)
    (hval : validateFile file config = none)
    (hp : convertPipeline as env file = (.ok (cd, cf), ev))
    (hdb : env.dbCreateErr = none) :
    ∃ att, (Attach as env model field file).1 = .ok att ∧
      att.Filename = (mkFinalFile file cd cf).Filename ∧
      att.Size = (mkFinalFile file cd cf).Size ∧
      att.Path = (mkUploadConfig config model field).UploadPath ++ "/" ++
        generateUniqueFilename token (mkFinalFile file cd cf).Filename ∧
      att.URL = p.GetURL att.Path ∧
      strEndsWith att.Path
        (generateUniqueFilename token (mkFinalFile file cd cf).Filename) = true ∧
      att.Filename ≠ generateUniqueFilename token (mkFinalFile file cd cf).Filename := by
  have hu : (uploadStep as (mkUploadConfig config model field) cd
      (mkFinalFile file cd cf)).1 =
      .ok { Filename := generateUniqueFilename token (mkFinalFile file cd cf).Filename,
            Path := (mkUploadConfig config model field).UploadPath ++ "/" ++
              generateUniqueFilename token (mkFinalFile file cd cf).Filename,
            Size := (mkFinalFile file cd cf).Size } := by
    cases cd with
    | some d => simp [uploadStep, hprov, r2ProviderM, r2UploadBytes, mkFinalFile]
    | none => simp [uploadStep, hprov, r2ProviderM, r2Upload, mkFinalFile]
  rw [Attach_eq_of_pipe hc hval hp, attachFinish_ok_eq hu hdb]
  refine ⟨_, rfl, rfl, rfl, rfl, ?_, ?_, ?_⟩
  · show as.provider.getURL _ = _
    rw [hprov]
    rfl
  · exact strEndsWith_append
      ((mkUploadConfig config model field).UploadPath ++ "/") _
  · exact (generateUniqueFilename_ne token (mkFinalFile file cd cf).Filename).symm

def wR2Provider : ProviderM := r2ProviderM (NewR2Provider wR2Cfg) "tok123" none none

/-- C10 (witness): a concrete non-converted upload through the R2 model
persists the client filename while the unique filename lands in `Path`. -/
theorem C10_witness :
    ∃ att, (Attach (mkAS wR2Provider cxCfg) baseEnv docModel "file" cxFile).1 =
        .ok att ∧
      att.Filename = (mkFinalFile cxFile none "a.jp").Filename ∧
      att.Size = (mkFinalFile cxFile none "a.jp").Size ∧
      att.Path = (mkUploadConfig cxCfg docModel "file").UploadPath ++ "/" ++
        generateUniqueFilename "tok123" (mkFinalFile cxFile none "a.jp").Filename ∧
      att.URL = (NewR2Provider wR2Cfg).GetURL att.Path ∧
      strEndsWith att.Path
        (generateUniqueFilename "tok123" (mkFinalFile cxFile none "a.jp").Filename) =
        true ∧
      att.Filename ≠
        generateUniqueFilename "tok123" (mkFinalFile cxFile none "a.jp").Filename :=
  C10_persisted_fields (NewR2Provider wR2Cfg) "tok123" (mkAS wR2Provider cxCfg)
    baseEnv docModel "file" cxFile cxCfg none "a.jp"
    [Ev.convImage, Ev.convVideo, Ev.convAudio]
    rfl rfl (by decide) rfl rfl

end ActiveStorageProof
